import Mathlib

/-!
Verification of the MealPlanning repository's persistence layer
(`database.py`), shopping-list aggregation (`get_shopping_list`) and amount
formatter (`format.py`), against a shallow embedding of the code.

Modelling conventions:
* Python strings are modelled as lists of Unicode code points (`PyString`).
* SQL `DECIMAL(10,2)` amounts are modelled exactly as integers counting
  hundredths (the column admits only multiples of 0.01, so this is lossless);
  `SUM` over such amounts is exact integer addition, and the `COUNT(*)`
  produced by the additional-items arm of the shopping-list query is scaled
  by 100 when it lands in the shared `total_amount` column.
* Tables are lists of rows in insertion order; a `SELECT` without `ORDER BY`
  is modelled as returning rows in that order (`pandas.read_sql` surfaces the
  storage order, and `iloc[0, 0]` then takes the first row).
* The `SERIAL` primary key of `recipes` is modelled by the `nextId` counter
  of the state (it grows monotonically, also across deletes).
* Surrogate `id` columns of `ingredients` and `additional_ingredients` are
  omitted: no behaviour in scope reads them.
* Each `MealDatabase` method body runs statements inside a single
  `engine.connect()` block; every `conn.commit()` makes the statements since
  the previous commit durable, and an exception between commits rolls those
  statements back.  Methods whose single transaction can fail on a
  constraint are modelled with `Option`/explicit fallback to the state of
  the last commit.
-/

/-- A Python string, as its list of Unicode code points. -/
abbrev PyString := List Nat

/-- Code points of a Lean string literal, used to write concrete Python strings. -/
def pyStr (s : String) : PyString := s.data.map Char.toNat

/-- ASCII lower-casing of one code point, as used by Python `str.lower` on
ASCII input (the repository's data is handled code point by code point). -/
def asciiLower (c : Nat) : Nat := if 65 ≤ c ∧ c ≤ 90 then c + 32 else c

/-- ASCII upper-casing of one code point. -/
def asciiUpper (c : Nat) : Nat := if 97 ≤ c ∧ c ≤ 122 then c - 32 else c

/-- Python `str.capitalize`: first character upper-cased, all remaining
characters lower-cased (ASCII case mapping). -/
def pyCapitalize : PyString → PyString
  | [] => []
  | c :: cs => asciiUpper c :: cs.map asciiLower

/-- Python string comparison `s <= t`: lexicographic on code points. -/
def strLeB : PyString → PyString → Bool
  | [], _ => true
  | _ :: _, [] => false
  | a :: as, b :: bs => if a < b then true else if a = b then strLeB as bs else false

/-- A row of the `recipes` table (`id SERIAL PRIMARY KEY, name, meal_type,
preparation`). -/
structure Recipe where
  id : Nat
  name : PyString
  meal_type : PyString
  preparation : PyString
deriving DecidableEq, Repr

/-- A row of the `ingredients` table (`recipe_id REFERENCES recipes(id)
ON DELETE CASCADE, name, amount DECIMAL(10,2), unit, category`); `amount`
counts hundredths. -/
structure Ingredient where
  recipe_id : Nat
  name : PyString
  amount : Int
  unit : PyString
  category : PyString
deriving DecidableEq, Repr

/-- A row of the `additional_ingredients` table (`name, amount DECIMAL(10,2)
DEFAULT 1, unit DEFAULT 'Stk'`); `amount` counts hundredths. -/
structure AdditionalItem where
  name : PyString
  amount : Int
  unit : PyString
deriving DecidableEq, Repr

/-- One row of the shopping-list result set
`(name, category, total_amount, unit)`; `total_amount` counts hundredths. -/
@[ext]
structure Row where
  name : PyString
  category : PyString
  total_amount : Int
  unit : PyString
deriving DecidableEq, Repr

/-- The database state: the four tables of `setup_database`, plus the
`SERIAL` counter backing `recipes.id`.  `selected` is the `selected_recipes`
table, whose single column is its primary key. -/
structure DBState where
  recipes : List Recipe
  ingredients : List Ingredient
  selected : List Nat
  additional : List AdditionalItem
  nextId : Nat
deriving DecidableEq, Repr

/-- The state right after `setup_database` on a fresh database. -/
def emptyDB : DBState := ⟨[], [], [], [], 1⟩

/-- The referential-integrity invariants enforced by the schema's foreign
keys and the `selected_recipes` primary key. -/
def WellFormed (st : DBState) : Prop :=
  (∀ i ∈ st.ingredients, i.recipe_id ∈ st.recipes.map Recipe.id) ∧
  (∀ s ∈ st.selected, s ∈ st.recipes.map Recipe.id) ∧
  st.selected.Nodup

/-- The `MEAL_TYPES` list of `database.py`. -/
def MEAL_TYPES : List PyString :=
  [pyStr "Frühstück", pyStr "Mittagessen", pyStr "Abendessen", pyStr "Snack",
   pyStr "Backen"]

/-- The `UNITS` list of `database.py`. -/
def UNITS : List PyString :=
  [pyStr "g", pyStr "ml", pyStr "EL", pyStr "TL", pyStr "Stk"]

/-- The `CATEGORIES` list of `database.py`; its order is the fixed display
order of the category vocabulary. -/
def CATEGORIES : List PyString :=
  [pyStr "Obst & Gemüse",
   pyStr "Fleisch & Fisch",
   pyStr "Aufschnitt & Aufstrich",
   pyStr "Milchprodukte & Eier",
   pyStr "Brot & Backwaren",
   pyStr "Müsli & Cerealien",
   pyStr "Konserven & Öle",
   pyStr "Nudeln & Reis",
   pyStr "Tiefkühl",
   pyStr "Sonstiges"]

/-- The `JOIN selected_recipes` of `get_shopping_list`: since `recipe_id` is
the primary key of `selected_recipes`, the inner join keeps exactly the
ingredient rows whose `recipe_id` is a selected id. -/
def selIngredients (st : DBState) : List Ingredient :=
  st.ingredients.filter (fun i => decide (i.recipe_id ∈ st.selected))

/-- The grouping key `(i.name, i.unit, i.category)` of the first arm of the
shopping-list query. -/
def ingKey (i : Ingredient) : PyString × PyString × PyString :=
  (i.name, i.unit, i.category)

/-- The distinct grouping keys occurring among joined ingredient rows. -/
def ingKeys (st : DBState) : List (PyString × PyString × PyString) :=
  ((selIngredients st).map ingKey).dedup

/-- `SUM(i.amount)` within one group of the first arm. -/
def groupSum (st : DBState) (k : PyString × PyString × PyString) : Int :=
  (((selIngredients st).filter (fun i => decide (ingKey i = k))).map
    Ingredient.amount).sum

/-- The output row of one ingredient group:
`SELECT i.name, i.category, SUM(i.amount), i.unit`. -/
def mkIngRow (st : DBState) (k : PyString × PyString × PyString) : Row :=
  ⟨k.1, k.2.2, groupSum st k, k.2.1⟩

/-- The first arm of the shopping-list query: one row per grouping key. -/
def ingRows (st : DBState) : List Row :=
  (ingKeys st).map (mkIngRow st)

/-- The distinct names occurring in `additional_ingredients`. -/
def addNames (st : DBState) : List PyString :=
  (st.additional.map AdditionalItem.name).dedup

/-- `COUNT(*)` within one group of the second arm. -/
def addCount (st : DBState) (n : PyString) : Nat :=
  (st.additional.filter (fun a => decide (a.name = n))).length

/-- The output row of one additional-items group:
`SELECT a.name, 'Sonstiges', COUNT(*), 'Stk'` (the count is a quantity in
units, hence scaled by 100 in the hundredths encoding). -/
def mkAddRow (st : DBState) (n : PyString) : Row :=
  ⟨n, pyStr "Sonstiges", 100 * (addCount st n : Int), pyStr "Stk"⟩

/-- The second arm of the shopping-list query: one row per distinct name. -/
def addRows (st : DBState) : List Row :=
  (addNames st).map (mkAddRow st)

/-- The sort key of `sort_values(["category", "name"])`: plain string
comparison on `category`, then on `name`. -/
def rowLeB (a b : Row) : Bool :=
  if a.category = b.category then strLeB a.name b.name
  else strLeB a.category b.category

/-- `rowLeB` as a relation, for `List.insertionSort`. -/
def rowLe (a b : Row) : Prop := rowLeB a b = true

instance rowLe.decRel : DecidableRel rowLe := fun a b => by
  unfold rowLe; infer_instance

/-- `MealDatabase.get_shopping_list`: the two grouped arms combined by SQL
`UNION` (which eliminates duplicate rows), then sorted by
`sort_values(["category", "name"])`. -/
def get_shopping_list (st : DBState) : List Row :=
  List.insertionSort rowLe ((ingRows st ++ addRows st).dedup)

/-- `MealDatabase.add_additional_ingredient`: inserts one row, storing
`name.capitalize()`. -/
def add_additional_ingredient (name : PyString) (amount : Int)
    (unit : PyString) (st : DBState) : DBState :=
  { st with additional := st.additional ++ [⟨pyCapitalize name, amount, unit⟩] }

/-- One `INSERT INTO selected_recipes` row of `update_selected_recipes`: it
fails (foreign key) when the id references no recipe, and fails (primary
key) when the id is already selected. -/
def insertSelStep (st : DBState) (rid : Nat) : Option DBState :=
  if rid ∈ st.recipes.map Recipe.id ∧ rid ∉ st.selected then
    some { st with selected := st.selected ++ [rid] }
  else none

/-- `MealDatabase.update_selected_recipes`: one transaction deletes every
`selected_recipes` row and inserts the given ids, with a single
`conn.commit()` at the end, so a failing insert rolls the whole call back to
the pre-call state. -/
def update_selected_recipes (recipe_ids : List Nat) (st : DBState) : DBState :=
  match recipe_ids.foldlM insertSelStep { st with selected := [] } with
  | some st' => st'
  | none => st

/-- Builds an `ingredients` row from one entry of the `ingredients` argument
list `(name, amount, unit, category)` of `add_recipe` / `edit_recipe`. -/
def mkIngredient (rid : Nat) (t : PyString × Int × PyString × PyString) :
    Ingredient :=
  ⟨rid, t.1, t.2.1, t.2.2.1, t.2.2.2⟩

/-- `MealDatabase.add_recipe`: inserts the recipe row and commits, then reads
`SELECT id FROM recipes WHERE name = %s` taking the first row (`iloc[0, 0]`),
inserts the ingredient rows under that id, and commits again.  The schema
puts no UNIQUE constraint on `recipes.name`, so the insert succeeds also
when the name already exists, and the ingredient rows then attach to the
earliest recipe carrying the name. -/
def add_recipe (meal_type name preparation : PyString)
    (ingredients : List (PyString × Int × PyString × PyString))
    (st : DBState) : DBState :=
  let rid := st.nextId
  let st1 : DBState :=
    { st with recipes := st.recipes ++ [⟨rid, name, meal_type, preparation⟩],
              nextId := rid + 1 }
  match st1.recipes.find? (fun r => decide (r.name = name)) with
  | some r =>
      { st1 with
        ingredients := st1.ingredients ++ ingredients.map (mkIngredient r.id) }
  | none => st1

/-- `MealDatabase.edit_recipe`: updates the recipe row and commits, deletes
the recipe's ingredient rows and commits, then inserts the submitted
ingredient rows and commits.  A missing recipe id makes each insert fail on
the foreign key (rolling back only the uncommitted insert segment, hence the
fallback state keeps the first two committed segments); with no ingredients
to insert, or with an existing id, the final commit succeeds. -/
def edit_recipe (recipe_id : Nat) (meal_type name preparation : PyString)
    (ingredients : List (PyString × Int × PyString × PyString))
    (st : DBState) : DBState :=
  let st1 : DBState :=
    { st with recipes := st.recipes.map (fun r =>
        if r.id = recipe_id then ⟨r.id, name, meal_type, preparation⟩ else r) }
  let st2 : DBState :=
    { st1 with ingredients :=
        st1.ingredients.filter (fun i => decide (i.recipe_id ≠ recipe_id)) }
  if recipe_id ∈ st2.recipes.map Recipe.id ∨ ingredients = [] then
    { st2 with ingredients :=
        st2.ingredients ++ ingredients.map (mkIngredient recipe_id) }
  else st2

/-- `MealDatabase.delete_recipe`: deletes the recipe row (the schema's
`ON DELETE CASCADE` clauses remove its `selected_recipes` row and its
`ingredients` rows) and then explicitly deletes the ingredient rows again. -/
def delete_recipe (recipe_id : Nat) (st : DBState) : DBState :=
  { st with
    recipes := st.recipes.filter (fun r => decide (r.id ≠ recipe_id)),
    ingredients :=
      st.ingredients.filter (fun i => decide (i.recipe_id ≠ recipe_id)),
    selected := st.selected.filter (fun s => decide (s ≠ recipe_id)) }

/-- Decimal digits of `n`, least significant first, with explicit fuel
(`fuel = n` always suffices for `n` itself). -/
def digitsRev : Nat → Nat → List Nat
  | 0, _ => []
  | fuel + 1, n => if n = 0 then [] else n % 10 :: digitsRev fuel (n / 10)

/-- Python `str` of a non-negative integer: its base-10 digit string. -/
def pyStrOfNat (n : Nat) : PyString :=
  if n = 0 then [48] else ((digitsRev n n).reverse).map (fun d => 48 + d)

/-- Python `str` of an integer (code point 45 is the minus sign). -/
def pyStrOfInt (i : Int) : PyString :=
  if i < 0 then 45 :: pyStrOfNat i.natAbs else pyStrOfNat i.natAbs

/-- The number of characters after the decimal point (code point 46) of a
rendered number, zero when no point occurs. -/
def digitsAfterPoint (s : PyString) : Nat :=
  if 46 ∈ s then (s.reverse.takeWhile (fun c => decide (c ≠ 46))).length else 0

/-- The digit string of `|m|`, zero-padded on the left to at least `s + 1`
digits, as Python's `Decimal.__str__` lays the coefficient out. -/
def padded (m : Int) (s : Nat) : PyString :=
  List.replicate (s + 1 - (pyStrOfNat m.natAbs).length) 48 ++ pyStrOfNat m.natAbs

/-- Python `str` of a `Decimal` with unscaled value `m` and `s` digits after
the point: the padded digit string of `m` with the point inserted `s` digits
from the right (no point when `s = 0`). -/
def decStr (m : Int) (s : Nat) : PyString :=
  if s = 0 then (if m < 0 then [45] else []) ++ pyStrOfNat m.natAbs
  else
    (if m < 0 then ([45] : PyString) else []) ++
      (padded m s).take ((padded m s).length - s) ++ [46] ++
      (padded m s).drop ((padded m s).length - s)

/-- Round-half-even of `10 * num / den`, the integer the float format
specifier `.1f` scales by ten (exact on the rational value `num / den`). -/
def rhe10 (num : Int) (den : Nat) : Int :=
  let t : Int := 10 * num
  let q : Int := t.fdiv den
  let r : Int := t - q * den
  if 2 * r < den then q
  else if (den : Int) < 2 * r then q + 1
  else if q % 2 = 0 then q else q + 1

/-- Python `f"{x:.1f}"` on the rational value `num / den`: round-half-even to
one decimal digit, rendered with exactly one digit after the point. -/
def formatFloat1 (num : Int) (den : Nat) : PyString :=
  (if rhe10 num den < 0 then ([45] : PyString) else []) ++
    pyStrOfNat ((rhe10 num den).natAbs / 10) ++ [46] ++
    [48 + (rhe10 num den).natAbs % 10]

/-- The numeric inputs `format_amount` distinguishes by `isinstance`: Python
`int`; Python `float` carrying its exact rational value `num / den` (every
binary float is such a rational); `Decimal` with unscaled value `m` and
scale `s`, i.e. the value `m / 10 ^ s`. -/
inductive PyNum where
  | pyInt : Int → PyNum
  | pyFloat : Int → Nat → PyNum
  | pyDec : Int → Nat → PyNum

/-- The mathematical value of a `format_amount` input. -/
def pyVal : PyNum → Rat
  | .pyInt n => (n : Rat)
  | .pyFloat num den => (num : Rat) / (den : Rat)
  | .pyDec m s => (m : Rat) / ((10 : Rat) ^ s)

/-- Non-negativity of a `format_amount` input (all denominators are
non-negative by construction). -/
def pyNonneg : PyNum → Prop
  | .pyInt n => 0 ≤ n
  | .pyFloat num _ => 0 ≤ num
  | .pyDec m _ => 0 ≤ m

/-- The integrality test the code performs on each branch: trivially true
for `int`; `amount % 1 == 0` for `float`; `amount == amount.to_integral_value()`
for `Decimal`. -/
def pyIntegral : PyNum → Prop
  | .pyInt _ => True
  | .pyFloat num den => num.emod den = 0
  | .pyDec m s => m.emod ((10 : Int) ^ s) = 0

/-- `format.format_amount`: `int`/`float` render as `str(int(x))` when whole
and as `f"{x:.1f}"` otherwise; `Decimal` renders as `str(int(x))` when whole
and as `str(x)` — the verbatim decimal string, not rounded — otherwise. -/
def format_amount : PyNum → PyString
  | .pyInt n => pyStrOfInt n
  | .pyFloat num den =>
      if num.emod den = 0 then pyStrOfInt (num.tdiv den)
      else formatFloat1 num den
  | .pyDec m s =>
      if m.emod ((10 : Int) ^ s) = 0 then pyStrOfInt (m.tdiv ((10 : Int) ^ s))
      else decStr m s

/-- The rank of a category in the fixed `CATEGORIES` display order. -/
def fixedCategoryRank (c : PyString) : Nat := CATEGORIES.indexOf c

/-- The ordering the specification claims for the shopping list: category in
fixed `CATEGORIES` order first, then name alphabetically. -/
def claimLeB (a b : Row) : Bool :=
  if fixedCategoryRank a.category = fixedCategoryRank b.category then
    strLeB a.name b.name
  else decide (fixedCategoryRank a.category < fixedCategoryRank b.category)

/-! ### String-order lemmas -/

theorem strLeB_cons_iff {a b : Nat} {as bs : PyString} :
    strLeB (a :: as) (b :: bs) = true ↔
      a < b ∨ (a = b ∧ strLeB as bs = true) := by
  simp only [strLeB]
  by_cases h1 : a < b
  · simp [h1]
  · by_cases h2 : a = b
    · simp [h1, h2]
    · simp [h1, h2]

theorem strLeB_refl : ∀ s : PyString, strLeB s s = true := by
  intro s
  induction s with
  | nil => rfl
  | cons a as ih => rw [strLeB_cons_iff]; exact Or.inr ⟨rfl, ih⟩

theorem strLeB_total : ∀ s t : PyString, strLeB s t = true ∨ strLeB t s = true := by
  intro s
  induction s with
  | nil => intro t; left; rfl
  | cons a as ih =>
    intro t
    cases t with
    | nil => right; rfl
    | cons b bs =>
      rcases Nat.lt_trichotomy a b with h | h | h
      · left; rw [strLeB_cons_iff]; exact Or.inl h
      · subst h
        rcases ih bs with h' | h'
        · left; rw [strLeB_cons_iff]; exact Or.inr ⟨rfl, h'⟩
        · right; rw [strLeB_cons_iff]; exact Or.inr ⟨rfl, h'⟩
      · right; rw [strLeB_cons_iff]; exact Or.inl h

theorem strLeB_trans : ∀ s t u : PyString,
    strLeB s t = true → strLeB t u = true → strLeB s u = true := by
  intro s
  induction s with
  | nil => intro t u _ _; rfl
  | cons a as ih =>
    intro t u hst htu
    cases t with
    | nil => exact absurd hst (by simp [strLeB])
    | cons b bs =>
      cases u with
      | nil => exact absurd htu (by simp [strLeB])
      | cons c cs =>
        rw [strLeB_cons_iff] at hst htu ⊢
        rcases hst with h1 | ⟨h1, h1'⟩ <;> rcases htu with h2 | ⟨h2, h2'⟩
        · exact Or.inl (by omega)
        · exact Or.inl (by omega)
        · exact Or.inl (by omega)
        · exact Or.inr ⟨by omega, ih bs cs h1' h2'⟩

theorem strLeB_antisymm : ∀ s t : PyString,
    strLeB s t = true → strLeB t s = true → s = t := by
  intro s
  induction s with
  | nil =>
    intro t _ hts
    cases t with
    | nil => rfl
    | cons b bs => exact absurd hts (by simp [strLeB])
  | cons a as ih =>
    intro t hst hts
    cases t with
    | nil => exact absurd hst (by simp [strLeB])
    | cons b bs =>
      rw [strLeB_cons_iff] at hst hts
      rcases hst with h1 | ⟨h1, h1'⟩ <;> rcases hts with h2 | ⟨h2, h2'⟩
      · omega
      · omega
      · omega
      · rw [h1, ih bs h1' h2']

instance rowLe.isTotal : IsTotal Row rowLe := by
  constructor
  intro a b
  unfold rowLe rowLeB
  by_cases h : a.category = b.category
  · simp [h]; exact strLeB_total _ _
  · have h' : ¬ (b.category = a.category) := fun e => h e.symm
    simp [h, h']; exact strLeB_total _ _

instance rowLe.isTrans : IsTrans Row rowLe := by
  constructor
  intro a b c hab hbc
  unfold rowLe rowLeB at *
  by_cases h1 : a.category = b.category <;> by_cases h2 : b.category = c.category
  · rw [if_pos h1] at hab
    rw [if_pos h2] at hbc
    rw [if_pos (h1.trans h2)]
    exact strLeB_trans _ _ _ hab hbc
  · rw [if_pos h1] at hab
    rw [if_neg h2] at hbc
    rw [if_neg (h1 ▸ h2), h1]
    exact hbc
  · rw [if_neg h1] at hab
    rw [if_pos h2] at hbc
    rw [if_neg (fun e => h1 (e.trans h2.symm)), ← h2]
    exact hab
  · rw [if_neg h1] at hab
    rw [if_neg h2] at hbc
    have hac := strLeB_trans _ _ _ hab hbc
    have hne : ¬ (a.category = c.category) := by
      intro e
      exact h1 (strLeB_antisymm _ _ hab (e ▸ hbc))
    rw [if_neg hne]
    exact hac

/-! ### Shopping-list membership lemmas -/

theorem nodup_get_shopping_list (st : DBState) : (get_shopping_list st).Nodup :=
  ((List.perm_insertionSort rowLe _).nodup_iff).mpr
    (List.nodup_dedup (ingRows st ++ addRows st))

theorem mem_get_shopping_list {st : DBState} {r : Row} :
    r ∈ get_shopping_list st ↔ r ∈ ingRows st ∨ r ∈ addRows st := by
  unfold get_shopping_list
  rw [List.mem_insertionSort, List.mem_dedup, List.mem_append]

theorem mem_ingRows {st : DBState} {r : Row} :
    r ∈ ingRows st ↔
      (∃ i ∈ st.ingredients, i.recipe_id ∈ st.selected ∧
          i.name = r.name ∧ i.unit = r.unit ∧ i.category = r.category) ∧
        r.total_amount =
          ((st.ingredients.filter (fun i =>
              decide (i.recipe_id ∈ st.selected ∧ i.name = r.name ∧
                i.unit = r.unit ∧ i.category = r.category))).map
            Ingredient.amount).sum := by
  have hfilter : ∀ n u c, ((selIngredients st).filter
      (fun i => decide (ingKey i = (n, u, c)))) =
      st.ingredients.filter (fun i =>
        decide (i.recipe_id ∈ st.selected ∧ i.name = n ∧
          i.unit = u ∧ i.category = c)) := by
    intro n u c
    unfold selIngredients
    rw [List.filter_filter]
    apply List.filter_congr
    intro i _
    simp [ingKey, Prod.ext_iff, and_assoc, Bool.and_comm]
  have hmem : ∀ n u c, ((∃ i ∈ selIngredients st, ingKey i = (n, u, c)) ↔
      ∃ i ∈ st.ingredients, i.recipe_id ∈ st.selected ∧
        i.name = n ∧ i.unit = u ∧ i.category = c) := by
    intro n u c
    unfold selIngredients
    simp [ingKey, Prod.ext_iff, and_assoc]
  constructor
  · intro hr
    unfold ingRows ingKeys at hr
    rcases List.mem_map.mp hr with ⟨k, hk, hrk⟩
    rcases List.mem_map.mp (List.mem_dedup.mp hk) with ⟨i, hi, hik⟩
    obtain ⟨n, u, c⟩ := k
    subst hrk
    simp only [mkIngRow]
    refine ⟨(hmem n u c).mp ⟨i, hi, hik⟩, ?_⟩
    unfold groupSum
    rw [hfilter]
  · rintro ⟨hex, hamt⟩
    unfold ingRows ingKeys
    apply List.mem_map.mpr
    refine ⟨(r.name, r.unit, r.category), ?_, ?_⟩
    · apply List.mem_dedup.mpr
      apply List.mem_map.mpr
      rcases (hmem r.name r.unit r.category).mpr hex with ⟨i, hi, hik⟩
      exact ⟨i, hi, hik⟩
    · apply Row.ext
      · rfl
      · rfl
      · show groupSum st (r.name, r.unit, r.category) = r.total_amount
        unfold groupSum
        rw [hfilter]
        exact hamt.symm
      · rfl

theorem mem_addRows {st : DBState} {r : Row} :
    r ∈ addRows st ↔
      r.category = pyStr "Sonstiges" ∧ r.unit = pyStr "Stk" ∧
      (∃ a ∈ st.additional, a.name = r.name) ∧
      r.total_amount =
        100 * ((st.additional.filter
          (fun a => decide (a.name = r.name))).length : Int) := by
  constructor
  · intro hr
    unfold addRows addNames at hr
    rcases List.mem_map.mp hr with ⟨n, hn, hrn⟩
    rcases List.mem_map.mp (List.mem_dedup.mp hn) with ⟨a, ha, han⟩
    subst hrn
    exact ⟨rfl, rfl, ⟨a, ha, han⟩, rfl⟩
  · rintro ⟨hcat, hunit, ⟨a, ha, han⟩, hamt⟩
    unfold addRows addNames
    apply List.mem_map.mpr
    refine ⟨r.name, ?_, ?_⟩
    · exact List.mem_dedup.mpr (List.mem_map.mpr ⟨a, ha, han⟩)
    · apply Row.ext
      · rfl
      · exact hcat.symm
      · show 100 * (addCount st r.name : Int) = r.total_amount
        unfold addCount
        exact hamt.symm
      · exact hunit.symm

/-! ### Concrete states used as witnesses and counterexamples -/

/-- Two selected recipes both containing Flour (200 g and 100 g, i.e. 20000
and 10000 hundredths) in the bread category, plus the additional item Milk
added twice: the worked example of the specification. -/
def stC1 : DBState :=
  ⟨[⟨1, pyStr "A", pyStr "Mittagessen", pyStr ""⟩,
    ⟨2, pyStr "B", pyStr "Mittagessen", pyStr ""⟩],
   [⟨1, pyStr "Flour", 20000, pyStr "g", pyStr "Brot & Backwaren"⟩,
    ⟨2, pyStr "Flour", 10000, pyStr "g", pyStr "Brot & Backwaren"⟩],
   [1, 2],
   [⟨pyStr "Milk", 100, pyStr "Stk"⟩, ⟨pyStr "Milk", 100, pyStr "Stk"⟩],
   3⟩

/-- One selected recipe with one ingredient in each of the categories
`Obst & Gemüse` (fixed-order rank 0) and `Fleisch & Fisch` (rank 1). -/
def stC3 : DBState :=
  ⟨[⟨1, pyStr "R", pyStr "Mittagessen", pyStr ""⟩],
   [⟨1, pyStr "Apfel", 100, pyStr "Stk", pyStr "Obst & Gemüse"⟩,
    ⟨1, pyStr "Lachs", 100, pyStr "Stk", pyStr "Fleisch & Fisch"⟩],
   [1], [], 2⟩

def rowLachs : Row := ⟨pyStr "Lachs", pyStr "Fleisch & Fisch", 100, pyStr "Stk"⟩

def rowApfel : Row := ⟨pyStr "Apfel", pyStr "Obst & Gemüse", 100, pyStr "Stk"⟩

/-- A state whose ingredient aggregation and whose additional-item
aggregation produce the identical row `("Milk", "Sonstiges", 2, "Stk")`:
one selected recipe holds the ingredient Milk, 2 Stk, category Sonstiges,
and the additional item Milk was added twice. -/
def stC9 : DBState :=
  ⟨[⟨1, pyStr "R", pyStr "Mittagessen", pyStr ""⟩],
   [⟨1, pyStr "Milk", 200, pyStr "Stk", pyStr "Sonstiges"⟩],
   [1],
   [⟨pyStr "Milk", 100, pyStr "Stk"⟩, ⟨pyStr "Milk", 100, pyStr "Stk"⟩],
   2⟩

def rowMilk : Row := ⟨pyStr "Milk", pyStr "Sonstiges", 200, pyStr "Stk"⟩

/-! ### Claim C1 -/

/-- C1: for every database state, `get_shopping_list` returns a
duplicate-free sequence whose rows are exactly: for each group of
selected-recipe ingredients keyed by (name, unit, category), the row whose
amount is the sum of the amounts of all ingredient rows with that key
belonging to selected recipes (non-selected recipes contribute nothing),
and for each distinct additional-item name, the row with category
`Sonstiges`, unit `Stk`, and amount the count of additional rows bearing
that name (not a sum of their amount fields). -/
theorem C1_shopping_list_rows (st : DBState) (r : Row) :
    (get_shopping_list st).Nodup ∧
    (r ∈ get_shopping_list st ↔
      ((∃ i ∈ st.ingredients, i.recipe_id ∈ st.selected ∧
          i.name = r.name ∧ i.unit = r.unit ∧ i.category = r.category) ∧
        r.total_amount =
          ((st.ingredients.filter (fun i =>
              decide (i.recipe_id ∈ st.selected ∧ i.name = r.name ∧
                i.unit = r.unit ∧ i.category = r.category))).map
            Ingredient.amount).sum) ∨
      (r.category = pyStr "Sonstiges" ∧ r.unit = pyStr "Stk" ∧
        (∃ a ∈ st.additional, a.name = r.name) ∧
        r.total_amount =
          100 * ((st.additional.filter
            (fun a => decide (a.name = r.name))).length : Int))) :=
  ⟨nodup_get_shopping_list st,
   mem_get_shopping_list.trans (or_congr mem_ingRows mem_addRows)⟩

/-- C1 witness: in the specification's worked example the 300 g Flour row
(30000 hundredths) is in the shopping list. -/
theorem C1_shopping_list_rows_witness :
    (⟨pyStr "Flour", pyStr "Brot & Backwaren", 30000, pyStr "g"⟩ : Row) ∈
      get_shopping_list stC1 :=
  (C1_shopping_list_rows stC1 _).2.mpr (Or.inl (by decide))

/-! ### Claim C3 -/

/-- C3 counterexample: the code sorts by the category string
(`sort_values(["category", "name"])`), not by the fixed `CATEGORIES` order:
with one `Obst & Gemüse` (rank 0) row and one `Fleisch & Fisch` (rank 1)
row, the returned sequence puts the rank-1 row first because
`"Fleisch & Fisch" < "Obst & Gemüse"` as strings, so it is not sorted by
fixed-order rank. -/
theorem C3_not_fixed_order_counterexample :
    get_shopping_list stC3 = [rowLachs, rowApfel] ∧
    fixedCategoryRank rowApfel.category < fixedCategoryRank rowLachs.category ∧
    ¬ List.Sorted (fun a b => claimLeB a b = true) (get_shopping_list stC3) := by
  refine ⟨by decide, by decide, fun h => ?_⟩
  rw [show get_shopping_list stC3 = [rowLachs, rowApfel] from by decide] at h
  exact absurd (List.rel_of_sorted_cons h rowApfel (List.mem_singleton.mpr rfl))
    (by decide)

/-- C3 amended: the sequence returned by `get_shopping_list` is sorted by
category alphabetically (plain string comparison of the category labels,
not the fixed vocabulary order) and then by name alphabetically within each
category, for every database state. -/
theorem C3_sorted_alphabetically (st : DBState) :
    List.Pairwise (fun a b : Row =>
      strLeB a.category b.category = true ∧
      (a.category = b.category → strLeB a.name b.name = true))
      (get_shopping_list st) := by
  have hs : List.Sorted rowLe (get_shopping_list st) :=
    List.sorted_insertionSort rowLe _
  refine hs.imp (fun {a b} hab => ?_)
  unfold rowLe rowLeB at hab
  by_cases h : a.category = b.category
  · rw [if_pos h] at hab
    exact ⟨by rw [h]; exact strLeB_refl _, fun _ => hab⟩
  · rw [if_neg h] at hab
    exact ⟨hab, fun e => absurd e h⟩

/-! ### Claim C9 -/

/-- C9 counterexample: SQL `UNION` deduplicates across the two aggregate
result sets.  In `stC9` the ingredient aggregation and the additional-item
aggregation each produce exactly the row `("Milk", "Sonstiges", 2, "Stk")`,
yet the returned list contains that row once, not twice — the two result
sets are not concatenated without cross-set deduplication when they agree
on all four fields. -/
theorem C9_union_dedup_counterexample :
    ingRows stC9 = [rowMilk] ∧ addRows stC9 = [rowMilk] ∧
    get_shopping_list stC9 = [rowMilk] ∧
    (get_shopping_list stC9).count rowMilk = 1 :=
  ⟨by decide, by decide, by decide, by decide⟩

/-- C9 amended: every row produced by the ingredient aggregation and every
row produced by the additional-item aggregation appears in the output, but
each exactly once: rows agreeing only on a name (differing in some field)
both appear, while a row produced identically by both arms is emitted once,
because the SQL `UNION` eliminates duplicate rows. -/
theorem C9_each_row_appears_once (st : DBState) (r : Row)
    (h : r ∈ ingRows st ∨ r ∈ addRows st) :
    (get_shopping_list st).count r = 1 := by
  have hmem : r ∈ (ingRows st ++ addRows st).dedup := by
    rw [List.mem_dedup, List.mem_append]; exact h
  have h1 := List.count_eq_one_of_mem
    (List.nodup_dedup (ingRows st ++ addRows st)) hmem
  unfold get_shopping_list
  rw [(List.perm_insertionSort rowLe _).count_eq]
  exact h1

/-- C9 witness: the amended statement applied to the collision state. -/
theorem C9_each_row_appears_once_witness :
    (get_shopping_list stC9).count rowMilk = 1 :=
  C9_each_row_appears_once stC9 rowMilk (Or.inl (by decide))

/-! ### Claim C10 -/

theorem asciiUpper_congr_of_lower_eq {a b : Nat}
    (h : asciiLower a = asciiLower b) : asciiUpper a = asciiUpper b := by
  unfold asciiLower at h
  unfold asciiUpper
  split_ifs at h ⊢ <;> omega

theorem pyCapitalize_congr {s t : PyString}
    (h : s.map asciiLower = t.map asciiLower) :
    pyCapitalize s = pyCapitalize t := by
  cases s with
  | nil =>
    cases t with
    | nil => rfl
    | cons b bs => exact absurd h (by simp)
  | cons a as =>
    cases t with
    | nil => exact absurd h (by simp)
    | cons b bs =>
      simp only [List.map_cons, List.cons.injEq] at h
      simp only [pyCapitalize, asciiUpper_congr_of_lower_eq h.1, h.2]

/-- C10: `add_additional_ingredient` stores `name.capitalize()` — first
character upper-cased, the rest lower-cased — not the caller's string
verbatim; two inputs differing only in letter case therefore store the same
name, and the shopping-list aggregation counts them together: adding both
raises the count of the shared stored name by two, and the shopping list
contains one `Sonstiges`/`Stk` row carrying that total count. -/
theorem C10_capitalized_names (st : DBState) (n1 n2 : PyString)
    (a1 a2 : Int) (u1 u2 : PyString)
    (h : n1.map asciiLower = n2.map asciiLower) :
    pyCapitalize n1 = pyCapitalize n2 ∧
    (add_additional_ingredient n2 a2 u2
        (add_additional_ingredient n1 a1 u1 st)).additional.map
        AdditionalItem.name =
      st.additional.map AdditionalItem.name ++
        [pyCapitalize n1, pyCapitalize n1] ∧
    addCount (add_additional_ingredient n2 a2 u2
        (add_additional_ingredient n1 a1 u1 st)) (pyCapitalize n1) =
      addCount st (pyCapitalize n1) + 2 ∧
    (⟨pyCapitalize n1, pyStr "Sonstiges",
        100 * (addCount (add_additional_ingredient n2 a2 u2
          (add_additional_ingredient n1 a1 u1 st)) (pyCapitalize n1) : Int),
        pyStr "Stk"⟩ : Row) ∈
      get_shopping_list (add_additional_ingredient n2 a2 u2
        (add_additional_ingredient n1 a1 u1 st)) := by
  have hcap := pyCapitalize_congr h
  refine ⟨hcap, ?_, ?_, ?_⟩
  · simp [add_additional_ingredient, hcap]
  · simp [addCount, add_additional_ingredient, List.filter_append, hcap]
  · apply mem_get_shopping_list.mpr
    apply Or.inr
    apply mem_addRows.mpr
    refine ⟨rfl, rfl, ?_, rfl⟩
    exact ⟨⟨pyCapitalize n1, a1, u1⟩, by simp [add_additional_ingredient], rfl⟩

/-- C10 witness: `"MILK"` and `"milk"` differ only in case and store the
same capitalized name. -/
theorem C10_capitalized_names_witness :
    pyCapitalize (pyStr "MILK") = pyCapitalize (pyStr "milk") :=
  (C10_capitalized_names emptyDB (pyStr "MILK") (pyStr "milk") 100 100
    (pyStr "Stk") (pyStr "Stk") (by decide)).1

/-! ### Claim C5 -/

theorem edit_preserves_recipe_ids (recipe_id : Nat)
    (meal_type name preparation : PyString) (st : DBState) :
    (st.recipes.map (fun r =>
        if r.id = recipe_id then
          (⟨r.id, name, meal_type, preparation⟩ : Recipe)
        else r)).map Recipe.id = st.recipes.map Recipe.id := by
  rw [List.map_map]
  apply List.map_congr_left
  intro r _
  by_cases h : r.id = recipe_id <;> simp [h]

/-- C5: after a successful `edit_recipe` on an existing recipe, the
ingredient rows owned by that recipe are exactly the submitted list (old
rows are deleted wholesale, then the new list inserted), and the ingredient
rows of all other recipes are untouched. -/
theorem C5_edit_replaces_ingredients (st : DBState) (rid : Nat)
    (meal_type name preparation : PyString)
    (ings : List (PyString × Int × PyString × PyString))
    (h : rid ∈ st.recipes.map Recipe.id) :
    (edit_recipe rid meal_type name preparation ings st).ingredients.filter
        (fun i => decide (i.recipe_id = rid)) =
      ings.map (mkIngredient rid) ∧
    (edit_recipe rid meal_type name preparation ings st).ingredients.filter
        (fun i => decide (i.recipe_id ≠ rid)) =
      st.ingredients.filter (fun i => decide (i.recipe_id ≠ rid)) := by
  unfold edit_recipe
  rw [if_pos (Or.inl (by
    rw [edit_preserves_recipe_ids]
    exact h))]
  constructor
  · rw [List.filter_append]
    have h1 : (st.ingredients.filter
        (fun i => decide (i.recipe_id ≠ rid))).filter
        (fun i => decide (i.recipe_id = rid)) = [] := by
      rw [List.filter_eq_nil_iff]
      intro i hi
      have := (List.mem_filter.mp hi).2
      simp at this ⊢
      exact this
    have h2 : (ings.map (mkIngredient rid)).filter
        (fun i => decide (i.recipe_id = rid)) = ings.map (mkIngredient rid) := by
      rw [List.filter_eq_self]
      intro i hi
      rcases List.mem_map.mp hi with ⟨t, _, rfl⟩
      simp [mkIngredient]
    rw [h1, h2, List.nil_append]
  · rw [List.filter_append]
    have h1 : (st.ingredients.filter
        (fun i => decide (i.recipe_id ≠ rid))).filter
        (fun i => decide (i.recipe_id ≠ rid)) =
        st.ingredients.filter (fun i => decide (i.recipe_id ≠ rid)) := by
      rw [List.filter_eq_self]
      intro i hi
      exact (List.mem_filter.mp hi).2
    have h2 : (ings.map (mkIngredient rid)).filter
        (fun i => decide (i.recipe_id ≠ rid)) = [] := by
      rw [List.filter_eq_nil_iff]
      intro i hi
      rcases List.mem_map.mp hi with ⟨t, _, rfl⟩
      simp [mkIngredient]
    rw [h1, h2, List.append_nil]

/-- A recipe with the two-ingredient list of the specification's edit
example: Flour 200 g and Egg 2 pieces. -/
def stC5 : DBState :=
  ⟨[⟨1, pyStr "Kuchen", pyStr "Backen", pyStr ""⟩],
   [⟨1, pyStr "Flour", 20000, pyStr "g", pyStr "Brot & Backwaren"⟩,
    ⟨1, pyStr "Egg", 200, pyStr "Stk", pyStr "Milchprodukte & Eier"⟩],
   [], [], 2⟩

/-- C5 witness: replacing the two-ingredient list with the one-ingredient
list `[("Milch", 300 ml, dairy)]` leaves exactly one ingredient row for the
recipe. -/
theorem C5_edit_replaces_ingredients_witness :
    (edit_recipe 1 (pyStr "Backen") (pyStr "Kuchen") (pyStr "")
        [(pyStr "Milch", 30000, pyStr "ml", pyStr "Milchprodukte & Eier")]
        stC5).ingredients.filter (fun i => decide (i.recipe_id = 1)) =
      [⟨1, pyStr "Milch", 30000, pyStr "ml", pyStr "Milchprodukte & Eier"⟩] :=
  (C5_edit_replaces_ingredients stC5 1 (pyStr "Backen") (pyStr "Kuchen")
    (pyStr "")
    [(pyStr "Milch", 30000, pyStr "ml", pyStr "Milchprodukte & Eier")]
    (by decide)).1

/-! ### Claim C8 -/

/-- C8: `delete_recipe` removes the recipe row, every ingredient row with
that `recipe_id`, and any selection row referencing it, leaves all other
rows and the additional items untouched, is a no-op on a well-formed state
when the id does not exist, and running it twice equals running it once. -/
theorem C8_delete_recipe_cascades_idempotent (st : DBState) (rid : Nat) :
    (∀ r ∈ (delete_recipe rid st).recipes, r.id ≠ rid) ∧
    (∀ i ∈ (delete_recipe rid st).ingredients, i.recipe_id ≠ rid) ∧
    (∀ s ∈ (delete_recipe rid st).selected, s ≠ rid) ∧
    (∀ r, r ∈ (delete_recipe rid st).recipes ↔ r ∈ st.recipes ∧ r.id ≠ rid) ∧
    (∀ i, i ∈ (delete_recipe rid st).ingredients ↔
        i ∈ st.ingredients ∧ i.recipe_id ≠ rid) ∧
    (∀ s, s ∈ (delete_recipe rid st).selected ↔ s ∈ st.selected ∧ s ≠ rid) ∧
    (delete_recipe rid st).additional = st.additional ∧
    (WellFormed st → rid ∉ st.recipes.map Recipe.id →
        delete_recipe rid st = st) ∧
    delete_recipe rid (delete_recipe rid st) = delete_recipe rid st := by
  refine ⟨?_, ?_, ?_, ?_, ?_, ?_, rfl, ?_, ?_⟩
  · intro r hr
    have := (List.mem_filter.mp hr).2
    simpa using this
  · intro i hi
    have := (List.mem_filter.mp hi).2
    simpa using this
  · intro s hs
    have := (List.mem_filter.mp hs).2
    simpa using this
  · intro r
    rw [show (delete_recipe rid st).recipes =
      st.recipes.filter (fun r => decide (r.id ≠ rid)) from rfl]
    simp [List.mem_filter]
  · intro i
    rw [show (delete_recipe rid st).ingredients =
      st.ingredients.filter (fun i => decide (i.recipe_id ≠ rid)) from rfl]
    simp [List.mem_filter]
  · intro s
    rw [show (delete_recipe rid st).selected =
      st.selected.filter (fun s => decide (s ≠ rid)) from rfl]
    simp [List.mem_filter]
  · intro hwf hrid
    unfold delete_recipe
    have h1 : st.recipes.filter (fun r => decide (r.id ≠ rid)) = st.recipes := by
      rw [List.filter_eq_self]
      intro r hr
      simp only [decide_eq_true_eq]
      intro e
      exact hrid (List.mem_map.mpr ⟨r, hr, e⟩)
    have h2 : st.ingredients.filter
        (fun i => decide (i.recipe_id ≠ rid)) = st.ingredients := by
      rw [List.filter_eq_self]
      intro i hi
      simp only [decide_eq_true_eq]
      intro e
      exact hrid (e ▸ hwf.1 i hi)
    have h3 : st.selected.filter (fun s => decide (s ≠ rid)) = st.selected := by
      rw [List.filter_eq_self]
      intro s hs
      simp only [decide_eq_true_eq]
      intro e
      exact hrid (e ▸ hwf.2.1 s hs)
    rw [h1, h2, h3]
  · have h1 : (st.recipes.filter (fun r => decide (r.id ≠ rid))).filter
        (fun r => decide (r.id ≠ rid)) =
        st.recipes.filter (fun r => decide (r.id ≠ rid)) :=
      List.filter_eq_self.mpr (fun x hx => (List.mem_filter.mp hx).2)
    have h2 : (st.ingredients.filter (fun i => decide (i.recipe_id ≠ rid))).filter
        (fun i => decide (i.recipe_id ≠ rid)) =
        st.ingredients.filter (fun i => decide (i.recipe_id ≠ rid)) :=
      List.filter_eq_self.mpr (fun x hx => (List.mem_filter.mp hx).2)
    have h3 : (st.selected.filter (fun s => decide (s ≠ rid))).filter
        (fun s => decide (s ≠ rid)) =
        st.selected.filter (fun s => decide (s ≠ rid)) :=
      List.filter_eq_self.mpr (fun x hx => (List.mem_filter.mp hx).2)
    simp only [delete_recipe]
    rw [h1, h2, h3]

/-- A well-formed one-recipe state for the C8 witness. -/
def stC8 : DBState :=
  ⟨[⟨1, pyStr "R", pyStr "Mittagessen", pyStr ""⟩],
   [⟨1, pyStr "Apfel", 100, pyStr "Stk", pyStr "Obst & Gemüse"⟩],
   [1], [], 2⟩

/-- C8 witness: deleting the nonexistent id 5 changes nothing. -/
theorem C8_delete_recipe_cascades_idempotent_witness :
    delete_recipe 5 stC8 = stC8 :=
  (C8_delete_recipe_cascades_idempotent stC8 5).2.2.2.2.2.2.2.1
    (by constructor <;> decide) (by decide)

/-! ### Claim C7 -/

theorem foldlM_insertSelStep (ids : List Nat) (st : DBState) :
    ids.foldlM insertSelStep st =
      if (∀ i ∈ ids, i ∈ st.recipes.map Recipe.id) ∧ ids.Nodup ∧
          (∀ i ∈ ids, i ∉ st.selected) then
        some { st with selected := st.selected ++ ids }
      else none := by
  induction ids generalizing st with
  | nil => simp
  | cons i rest ih =>
    rw [List.foldlM_cons]
    by_cases hc : i ∈ st.recipes.map Recipe.id ∧ i ∉ st.selected
    · have hstep : insertSelStep st i =
          some { st with selected := st.selected ++ [i] } := by
        unfold insertSelStep
        rw [if_pos hc]
      have hcond : ((∀ x ∈ rest, x ∈ st.recipes.map Recipe.id) ∧ rest.Nodup ∧
            (∀ x ∈ rest, x ∉ st.selected ++ [i])) ↔
          ((∀ x ∈ i :: rest, x ∈ st.recipes.map Recipe.id) ∧
            (i :: rest).Nodup ∧ (∀ x ∈ i :: rest, x ∉ st.selected)) := by
        simp only [List.forall_mem_cons, List.nodup_cons, List.mem_append,
          List.mem_singleton, not_or]
        constructor
        · rintro ⟨hA, hB, hC⟩
          refine ⟨⟨hc.1, hA⟩, ⟨fun hmem => ?_, hB⟩, hc.2, fun x hx => (hC x hx).1⟩
          exact (hC i hmem).2 rfl
        · rintro ⟨⟨_, hA⟩, ⟨hni, hB⟩, _, hC⟩
          refine ⟨hA, hB, fun x hx => ⟨hC x hx, fun e => hni (e ▸ hx)⟩⟩
      have hif : (if (∀ x ∈ rest, x ∈ st.recipes.map Recipe.id) ∧ rest.Nodup ∧
            (∀ x ∈ rest, x ∉ st.selected ++ [i]) then
          some ({ st with selected := (st.selected ++ [i]) ++ rest } : DBState)
        else none) =
        (if (∀ x ∈ i :: rest, x ∈ st.recipes.map Recipe.id) ∧
            (i :: rest).Nodup ∧ (∀ x ∈ i :: rest, x ∉ st.selected) then
          some ({ st with selected := st.selected ++ i :: rest } : DBState)
        else none) := by
        refine if_congr hcond ?_ rfl
        rw [List.append_assoc]
        rfl
      rw [hstep]
      exact (ih { st with selected := st.selected ++ [i] }).trans hif
    · have hstep : insertSelStep st i = none := by
        unfold insertSelStep
        rw [if_neg hc]
      rw [hstep, if_neg (fun hcond => hc ⟨hcond.1 i (List.mem_cons_self i rest),
        hcond.2.2 i (List.mem_cons_self i rest)⟩)]
      rfl

/-- C7: `update_selected_recipes` atomically clears the selection and
inserts the given ids inside one transaction with a single final commit:
when every id references an existing recipe and the ids are distinct, the
selection afterwards is exactly the given list (so the empty list empties
it); otherwise the failing insert rolls the whole call back and the entire
state — in particular the old selection — is unchanged. -/
theorem C7_replace_selection_atomic (ids : List Nat) (st : DBState) :
    ((∀ i ∈ ids, i ∈ st.recipes.map Recipe.id) ∧ ids.Nodup →
        update_selected_recipes ids st = { st with selected := ids }) ∧
    (¬ ((∀ i ∈ ids, i ∈ st.recipes.map Recipe.id) ∧ ids.Nodup) →
        update_selected_recipes ids st = st) := by
  unfold update_selected_recipes
  rw [foldlM_insertSelStep]
  constructor
  · rintro ⟨h1, h2⟩
    rw [if_pos ⟨h1, h2, fun i _ hmem => (List.not_mem_nil i) hmem⟩]
    simp
  · intro h
    rw [if_neg (fun hcond => h ⟨hcond.1, hcond.2.1⟩)]

/-- A two-recipe state whose selection holds recipe 1. -/
def stC7 : DBState :=
  ⟨[⟨1, pyStr "A", pyStr "Mittagessen", pyStr ""⟩,
    ⟨2, pyStr "B", pyStr "Mittagessen", pyStr ""⟩],
   [], [1], [], 3⟩

/-- C7 witness: replacing the selection `[1]` by `[2, 1]` succeeds and the
selection afterwards is exactly `[2, 1]`. -/
theorem C7_replace_selection_atomic_witness :
    update_selected_recipes [2, 1] stC7 = { stC7 with selected := [2, 1] } :=
  (C7_replace_selection_atomic [2, 1] stC7).1 (by decide)

/-! ### Claim C2 -/

/-- The state after `add_recipe` creates `"Pancakes"` with one ingredient. -/
def stPan1 : DBState :=
  add_recipe (pyStr "Frühstück") (pyStr "Pancakes") (pyStr "p")
    [(pyStr "Mehl", 20000, pyStr "g", pyStr "Brot & Backwaren")] emptyDB

/-- The state after `add_recipe` is called a second time with the name
`"Pancakes"` and a different ingredient list. -/
def stPan2 : DBState :=
  add_recipe (pyStr "Frühstück") (pyStr "Pancakes") (pyStr "q")
    [(pyStr "Milch", 30000, pyStr "ml", pyStr "Milchprodukte & Eier")] stPan1

/-- C2 failing input evaluated: the schema has no UNIQUE constraint on
`recipes.name`, so the second `add_recipe("Pancakes", ...)` call does not
fail — afterwards two recipe rows carry the name, and because the code
resolves the recipe id by `SELECT id FROM recipes WHERE name` taking the
first row, the second call's ingredient row is attached to recipe 1: the
first recipe's ingredient set did not remain what the first call inserted.
The claimed atomicity also has no mechanism: `add_recipe` commits the
recipe row before inserting any ingredient row. -/
theorem C2_duplicate_name_not_rejected :
    (stPan2.recipes.filter (fun r => decide (r.name = pyStr "Pancakes"))).length
        = 2 ∧
    stPan2.ingredients.filter (fun i => decide (i.recipe_id = 1)) =
      [⟨1, pyStr "Mehl", 20000, pyStr "g", pyStr "Brot & Backwaren"⟩,
       ⟨1, pyStr "Milch", 30000, pyStr "ml", pyStr "Milchprodukte & Eier"⟩] ∧
    stPan2.ingredients.filter (fun i => decide (i.recipe_id = 2)) = [] :=
  ⟨by decide, by decide, by decide⟩

/-! ### Claim C6 -/

/-- Two recipes named `"A"` and `"B"`. -/
def stC6 : DBState :=
  ⟨[⟨1, pyStr "A", pyStr "Mittagessen", pyStr ""⟩,
    ⟨2, pyStr "B", pyStr "Mittagessen", pyStr ""⟩],
   [], [], [], 3⟩

/-- C6 failing input evaluated: renaming recipe 2 to `"A"`, the name of the
other existing recipe, raises no UniqueConstraintViolation — the edit goes
through completely (the recipe row is renamed and the submitted ingredient
is attached), leaving two recipes with the same name. -/
theorem C6_duplicate_name_not_rejected_on_edit :
    (edit_recipe 2 (pyStr "Mittagessen") (pyStr "A") (pyStr "")
        [(pyStr "Milch", 30000, pyStr "ml", pyStr "Milchprodukte & Eier")]
        stC6).recipes.map Recipe.name = [pyStr "A", pyStr "A"] ∧
    (edit_recipe 2 (pyStr "Mittagessen") (pyStr "A") (pyStr "")
        [(pyStr "Milch", 30000, pyStr "ml", pyStr "Milchprodukte & Eier")]
        stC6).ingredients =
      [⟨2, pyStr "Milch", 30000, pyStr "ml", pyStr "Milchprodukte & Eier"⟩] :=
  ⟨by decide, by decide⟩

/-! ### Claim C4 -/

theorem digitsRev_lt : ∀ fuel n : Nat, ∀ d ∈ digitsRev fuel n, d < 10 := by
  intro fuel
  induction fuel with
  | zero => intro n d hd; simp [digitsRev] at hd
  | succ f ih =>
    intro n d hd
    simp only [digitsRev] at hd
    by_cases hn : n = 0
    · rw [if_pos hn] at hd
      simp at hd
    · rw [if_neg hn] at hd
      rcases List.mem_cons.mp hd with h | h
      · have h10 : n % 10 < 10 := Nat.mod_lt n (by omega)
        omega
      · exact ih _ d h

theorem pyStrOfNat_digits (n : Nat) : ∀ c ∈ pyStrOfNat n, 48 ≤ c ∧ c ≤ 57 := by
  intro c hc
  unfold pyStrOfNat at hc
  by_cases hn : n = 0
  · rw [if_pos hn] at hc
    simp at hc
    omega
  · rw [if_neg hn] at hc
    rcases List.mem_map.mp hc with ⟨d, hd, rfl⟩
    have := digitsRev_lt n n d (List.mem_reverse.mp hd)
    omega

theorem pyStrOfInt_point_free (i : Int) :
    46 ∉ pyStrOfInt i ∧ digitsAfterPoint (pyStrOfInt i) = 0 := by
  have hnotin : (46 : Nat) ∉ pyStrOfInt i := by
    intro h
    unfold pyStrOfInt at h
    by_cases hi : i < 0
    · rw [if_pos hi] at h
      rcases List.mem_cons.mp h with h' | h'
      · omega
      · have := pyStrOfNat_digits i.natAbs 46 h'
        omega
    · rw [if_neg hi] at h
      have := pyStrOfNat_digits i.natAbs 46 h
      omega
  refine ⟨hnotin, ?_⟩
  unfold digitsAfterPoint
  rw [if_neg hnotin]

theorem takeWhile_all_append (p : Nat → Bool) :
    ∀ (xs : List Nat) (y : Nat) (ys : List Nat),
      (∀ x ∈ xs, p x = true) → p y = false →
      (xs ++ y :: ys).takeWhile p = xs := by
  intro xs
  induction xs with
  | nil =>
    intro y ys _ hy
    simp [List.takeWhile_cons, hy]
  | cons a as ih =>
    intro y ys hall hy
    have h1 := hall a (List.mem_cons_self a as)
    have h2 := ih y ys (fun x hx => hall x (List.mem_cons_of_mem a hx)) hy
    simp [List.takeWhile_cons, h1, h2]

theorem digitsAfterPoint_of_reverse (s : PyString) (d : Nat) (rest : PyString)
    (hrev : s.reverse = d :: 46 :: rest) (hd : d ≠ 46) :
    digitsAfterPoint s = 1 := by
  unfold digitsAfterPoint
  have h46 : (46 : Nat) ∈ s := by
    have h : (46 : Nat) ∈ s.reverse := by
      rw [hrev]
      simp
    simpa using h
  rw [if_pos h46, hrev]
  simp [List.takeWhile_cons, hd]

theorem digitsAfterPoint_formatFloat1 (num : Int) (den : Nat) :
    digitsAfterPoint (formatFloat1 num den) = 1 := by
  apply digitsAfterPoint_of_reverse _ (48 + (rhe10 num den).natAbs % 10)
    ((pyStrOfNat ((rhe10 num den).natAbs / 10)).reverse ++
      (if rhe10 num den < 0 then ([45] : PyString) else []).reverse)
  · simp [formatFloat1]
  · omega

theorem padded_digits (m : Int) (s : Nat) :
    ∀ c ∈ padded m s, 48 ≤ c ∧ c ≤ 57 := by
  intro c hc
  rcases List.mem_append.mp hc with h | h
  · have := List.eq_of_mem_replicate h
    omega
  · exact pyStrOfNat_digits m.natAbs c h

theorem padded_length (m : Int) (s : Nat) : s + 1 ≤ (padded m s).length := by
  unfold padded
  rw [List.length_append, List.length_replicate]
  omega

theorem decStr_digitsAfterPoint (m : Int) (s : Nat) (hs : s ≠ 0) :
    digitsAfterPoint (decStr m s) = s := by
  unfold decStr
  rw [if_neg hs]
  unfold digitsAfterPoint
  rw [if_pos (by simp)]
  have hrev : ((if m < 0 then ([45] : PyString) else []) ++
      (padded m s).take ((padded m s).length - s) ++ [46] ++
      (padded m s).drop ((padded m s).length - s)).reverse =
      ((padded m s).drop ((padded m s).length - s)).reverse ++ 46 ::
        (((padded m s).take ((padded m s).length - s)).reverse ++
          (if m < 0 then ([45] : PyString) else []).reverse) := by
    simp
  rw [hrev, takeWhile_all_append]
  · rw [List.length_reverse, List.length_drop]
    have := padded_length m s
    omega
  · intro x hx
    have hx' : x ∈ padded m s :=
      List.drop_subset _ _ (List.mem_reverse.mp hx)
    have hd := padded_digits m s x hx'
    simp
    omega
  · simp

/-- C4 counterexample: `Decimal("4.25")` (modelled with unscaled value 425
and scale 2) is non-negative and has the same mathematical value as the
float `4.25 = 17/4`, yet `format_amount` returns the verbatim string
`"4.25"` for the `Decimal` — two digits after the decimal point, not one —
while returning `"4.2"` for the equal float, so the result is neither
rounded to one decimal digit nor equal for equal values. -/
theorem C4_decimal_not_rounded_counterexample :
    pyVal (PyNum.pyDec 425 2) = pyVal (PyNum.pyFloat 17 4) ∧
    format_amount (PyNum.pyDec 425 2) = pyStr "4.25" ∧
    format_amount (PyNum.pyFloat 17 4) = pyStr "4.2" ∧
    1 < digitsAfterPoint (format_amount (PyNum.pyDec 425 2)) := by
  refine ⟨?_, by decide, by decide, by decide⟩
  show ((425 : Int) : Rat) / ((10 : Rat) ^ 2) =
    ((17 : Int) : Rat) / ((4 : Nat) : Rat)
  norm_num

/-- C4 amended: for every non-negative input, `format_amount` returns the
integer in base-10 form with no decimal point when the value's fractional
part is exactly zero; a non-integral `float` is rounded to exactly one
decimal digit; but a non-integral `Decimal` is rendered by `str(x)`
verbatim, keeping all `s` digits of its scale after the point — so for
`Decimal` inputs the one-decimal-digit bound and the equal-values-format-
identically property fail. -/
theorem C4_format_amount_amended (x : PyNum) (hx : pyNonneg x) :
    (pyIntegral x →
        46 ∉ format_amount x ∧ digitsAfterPoint (format_amount x) = 0) ∧
    (∀ num den, x = PyNum.pyFloat num den → ¬ pyIntegral x →
        digitsAfterPoint (format_amount x) = 1) ∧
    (∀ m s, x = PyNum.pyDec m s → ¬ pyIntegral x →
        format_amount x = decStr m s ∧
          digitsAfterPoint (format_amount x) = s) := by
  refine ⟨?_, ?_, ?_⟩
  · intro hint
    cases x with
    | pyInt n =>
      exact pyStrOfInt_point_free n
    | pyFloat num den =>
      have hi : num.emod den = 0 := hint
      simp only [format_amount, if_pos hi]
      exact pyStrOfInt_point_free _
    | pyDec m s =>
      have hi : m.emod ((10 : Int) ^ s) = 0 := hint
      simp only [format_amount, if_pos hi]
      exact pyStrOfInt_point_free _
  · rintro num den rfl hni
    have hi : ¬ (num.emod den = 0) := hni
    simp only [format_amount, if_neg hi]
    exact digitsAfterPoint_formatFloat1 num den
  · rintro m s rfl hni
    have hi : ¬ (m.emod ((10 : Int) ^ s) = 0) := hni
    have hs : s ≠ 0 := by
      intro e
      subst e
      exact hni (show m.emod ((10 : Int) ^ 0) = 0 by rw [pow_zero]; exact Int.emod_one m)
    rw [show format_amount (PyNum.pyDec m s) = decStr m s from by
      simp only [format_amount, if_neg hi]]
    exact ⟨rfl, decStr_digitsAfterPoint m s hs⟩

/-- C4 witness: the amended statement applied to `Decimal("4.25")` yields
two digits after the decimal point. -/
theorem C4_format_amount_amended_witness :
    digitsAfterPoint (format_amount (PyNum.pyDec 425 2)) = 2 :=
  ((C4_format_amount_amended (PyNum.pyDec 425 2)
      (show (0 : Int) ≤ 425 by decide)).2.2 425 2 rfl
    (show ¬ ((425 : Int).emod ((10 : Int) ^ 2) = 0) by decide)).2
